import Mathlib

/-!
Shallow embedding of the Mini SQL database engine (src/sql_parser.py and
src/query_executor.py) and verification of the frozen claims about it.

Conventions of the embedding:
* Python strings are Lean `String`s (sequences of Unicode scalar values).
* Python's regex character classes `\s` and `\w` (which under `re` on `str`
  are Unicode-aware) are modelled exactly for code points below U+0100; word
  and space characters at or above U+0100 are outside the modelled fragment
  (no claim exercises them).
* Python `int(...)` / `float(...)` string conversion is modelled for the
  fragment: optional surrounding whitespace, optional sign, decimal digit
  runs with single underscores between digits, and for floats an optional
  single fractional point.  Exponent notation, `inf`/`nan`, and non-ASCII
  digits accepted by the CPython runtime are outside the modelled fragment.
* Python floats are modelled as exact rationals.  Every literal the source
  can parse is an exact decimal; the model keeps its exact value, and
  `floatStr` renders exactly those decimals the way `str` renders the
  corresponding shortest-repr float.
* Exceptions are modelled as `Except`/`Option` results: `QueryParseError`
  becomes `ParseErr`, `ExecutionError` becomes `ExecErr`, and the
  `ValueError` raised inside `_coerce_value` becomes the `none` of an
  `Option` (it is caught and re-raised as an `ExecutionError` by
  `_apply_where_clause`, exactly as in the source).
-/

namespace MiniSql

/-- Python regex `\s` (equivalently `str.isspace`) restricted to code points
below U+0100: `\t`, `\n`, `\v`, `\f`, `\r`, the separators U+001C–U+001F,
space, U+0085 and U+00A0.  Unicode spaces above U+00FF are outside the
modelled fragment. -/
def pySpace (c : Char) : Bool :=
  let n := c.toNat
  (0x09 ≤ n && n ≤ 0x0D) || (0x1C ≤ n && n ≤ 0x1F) || n == 0x20 ||
    n == 0x85 || n == 0xA0

/-- Python regex `\w` (Unicode word characters) restricted to code points
below U+0100: ASCII letters, digits and underscore, plus the Latin-1
word characters ª ² ³ µ ¹ º ¼ ½ ¾ and the letters U+00C0–U+00FF except
× (U+00D7) and ÷ (U+00F7).  Word characters above U+00FF are outside the
modelled fragment. -/
def pyWordChar (c : Char) : Bool :=
  let n := c.toNat
  (0x30 ≤ n && n ≤ 0x39) || (0x41 ≤ n && n ≤ 0x5A) ||
    (0x61 ≤ n && n ≤ 0x7A) || n == 0x5F ||
    n == 0xAA || n == 0xB2 || n == 0xB3 || n == 0xB5 || n == 0xB9 ||
    n == 0xBA || n == 0xBC || n == 0xBD || n == 0xBE ||
    (0xC0 ≤ n && n ≤ 0xFF && !(n == 0xD7) && !(n == 0xF7))

/-- Python `str.strip()` on a character list: drop whitespace from both
ends. -/
def pyStripList (cs : List Char) : List Char :=
  ((cs.dropWhile pySpace).reverse.dropWhile pySpace).reverse

/-- Python `str.strip()`. -/
def pyStrip (s : String) : String :=
  (pyStripList s.data).asString

/-- Value of an ASCII decimal digit. -/
def digitVal (c : Char) : Nat := c.toNat - 0x30

/-- Continue reading a decimal digit run in which single underscores may
appear between digits (Python numeric literal grammar); the whole list must
be consumed. -/
def digitsRest (acc : Nat) : List Char → Option Nat
  | [] => some acc
  | '_' :: c :: cs =>
      if c.isDigit then digitsRest (acc * 10 + digitVal c) cs else none
  | c :: cs =>
      if c.isDigit then digitsRest (acc * 10 + digitVal c) cs else none

/-- A non-empty decimal digit run with single underscores between digits,
consuming the whole list. -/
def digitsRun : List Char → Option Nat
  | c :: cs => if c.isDigit then digitsRest (digitVal c) cs else none
  | [] => none

/-- Like `digitsRun` but also counts the digits read (underscores do not
count); used for fractional parts. -/
def digitsRestCnt (acc : Nat) (k : Nat) : List Char → Option (Nat × Nat)
  | [] => some (acc, k)
  | '_' :: c :: cs =>
      if c.isDigit then digitsRestCnt (acc * 10 + digitVal c) (k + 1) cs
      else none
  | c :: cs =>
      if c.isDigit then digitsRestCnt (acc * 10 + digitVal c) (k + 1) cs
      else none

/-- Counting variant of `digitsRun`. -/
def digitsRunCnt : List Char → Option (Nat × Nat)
  | c :: cs => if c.isDigit then digitsRestCnt (digitVal c) 1 cs else none
  | [] => none

/-- Unsigned body of Python `float(...)`: digits, digits `.` optional
digits, or `.` digits; the value of integer part `n` and fraction `v` of
`k` digits is `(n * 10 ^ k + v) / 10 ^ k`. -/
def pyFloatBody (cs : List Char) : Option ℚ :=
  let p := cs.span (fun c => !(c == '.'))
  match p.2 with
  | [] => (digitsRun p.1).map (fun n => mkRat n 1)
  | _ :: fp =>
      if fp.contains '.' then none
      else
        match p.1, fp with
        | [], [] => none
        | [], f =>
            (digitsRunCnt f).map (fun vk => mkRat vk.1 (10 ^ vk.2))
        | ip, [] => (digitsRun ip).map (fun n => mkRat n 1)
        | ip, f =>
            match digitsRun ip, digitsRunCnt f with
            | some n, some vk =>
                some (mkRat (n * 10 ^ vk.2 + vk.1) (10 ^ vk.2))
            | _, _ => none

/-- Python `float(string)` on the modelled fragment: strip whitespace,
optional sign, then `pyFloatBody`. -/
def pyFloatOfString (s : String) : Option ℚ :=
  match pyStripList s.data with
  | '+' :: cs => pyFloatBody cs
  | '-' :: cs => (pyFloatBody cs).map (fun q => -q)
  | cs => pyFloatBody cs

/-- Python `int(string)` on the modelled fragment: strip whitespace,
optional sign, then a digit run. -/
def pyIntOfString (s : String) : Option Int :=
  match pyStripList s.data with
  | '+' :: cs => (digitsRun cs).map (fun n => (n : Int))
  | '-' :: cs => (digitsRun cs).map (fun n => -(n : Int))
  | cs => (digitsRun cs).map (fun n => (n : Int))

/-- The closed value variant of the engine: a cell or literal is Python
text, int, or float (§3 of the spec; floats modelled as exact rationals). -/
inductive Value where
  | text (s : String)
  | int (n : Int)
  | float (q : ℚ)
deriving DecidableEq

/-- The least number of decimal fraction digits (at most 64) needed to
write `q` exactly, i.e. the least `k` with `q.den` dividing `10 ^ k`; 64
when no such number exists below the bound. -/
def decExp (q : ℚ) : Nat :=
  ((List.range 65).find? (fun k => (10 : Nat) ^ k % q.den == 0)).getD 64

/-- Python `str` on a float, for the modelled fragment: floats that are
exact decimals (every float the source's parser can produce) are rendered
in minimal fixed-point form with at least one fractional digit, matching
CPython's shortest-roundtrip `repr` on them (`str(30.5) = "30.5"`,
`str(2.0) = "2.0"`).  Exponent-form output of very large or small floats is
outside the modelled fragment; rationals that are not 64-digit decimals are
clamped. -/
def floatStr (q : ℚ) : String :=
  let k := decExp q
  let sign := if q.num < 0 then "-" else ""
  let m := q.num.natAbs * 10 ^ k / q.den
  if k == 0 then sign ++ toString m ++ ".0"
  else
    let ds := List.replicate (k + 1 - (toString m).data.length) '0' ++
      (toString m).data
    sign ++ (ds.take (ds.length - k)).asString ++ "." ++
      (ds.drop (ds.length - k)).asString

/-- Python `str(value)`. -/
def pyStr : Value → String
  | .text s => s
  | .int n => toString n
  | .float q => floatStr q

/-- Python `float(value)`: identity on floats, exact widening of ints,
string parse on text. -/
def pyFloatOfValue : Value → Option ℚ
  | .text s => pyFloatOfString s
  | .int n => some (mkRat n 1)
  | .float q => some q

/-- Python `int(value)`: identity on ints, truncation toward zero on
floats, string parse on text. -/
def pyIntOfValue : Value → Option Int
  | .text s => pyIntOfString s
  | .int n => some n
  | .float q => some (Int.tdiv q.num (q.den : Int))

/-- `type(row_val) == type(comparison_val)` of the source: the two values
are of the same Python type. -/
def sameKind : Value → Value → Bool
  | .text _, .text _ => true
  | .int _, .int _ => true
  | .float _, .float _ => true
  | _, _ => false

/-- `_coerce_value` of src/query_executor.py.  `none` models the
`ValueError` its numeric branch raises (caught by `_apply_where_clause`).
The final `return row_val` fall-through of the source is unreachable here
because a comparison value is always text, int or float. -/
def coerceValue (rowVal compVal : Value) : Option Value :=
  if sameKind rowVal compVal then some rowVal
  else
    match compVal with
    | .text _ => some (.text (pyStr rowVal))
    | .float _ => (pyFloatOfValue rowVal).map .float
    | .int _ =>
        if (pyStr rowVal).data.contains '.' then
          (pyFloatOfValue rowVal).map .float
        else
          (pyIntOfValue rowVal).map .int

/-- Python `==` on the value model: numeric values compare by exact value
across int/float, text compares by string equality, text never equals a
number. -/
def pyEq : Value → Value → Bool
  | .text a, .text b => a == b
  | .int a, .int b => a == b
  | .float a, .float b => a == b
  | .int a, .float b => mkRat a 1 == b
  | .float a, .int b => a == mkRat b 1
  | _, _ => false

/-- Python `<` on the value model: `some` of the boolean for two texts or
two numbers (strings compare lexicographically by code point, numbers by
exact value), `none` for text against a number (Python raises `TypeError`,
which the source does not catch). -/
def pyLtB : Value → Value → Option Bool
  | .text a, .text b => some (decide (a < b))
  | .int a, .int b => some (decide (a < b))
  | .float a, .float b => some (Rat.blt a b)
  | .int a, .float b => some (Rat.blt (mkRat a 1) b)
  | .float a, .int b => some (Rat.blt a (mkRat b 1))
  | _, _ => none

/-- Errors of query execution.  All but `typeErr` model the source's
`ExecutionError`; `typeErr` models an uncaught Python `TypeError` from
ordering text against a number (unreachable after coercion). -/
inductive ExecErr where
  | columnNotFound (col : String)
  | cannotCompare (col : String) (val : Value)
  | unknownOperator (op : String)
  | unsupportedAggregate (f : String)
  | typeErr
deriving DecidableEq

/-- `_compare` of src/query_executor.py. -/
def compareVals (rowVal : Value) (op : String) (compVal : Value) :
    Except ExecErr Bool :=
  if op == "=" then .ok (pyEq rowVal compVal)
  else if op == "!=" then .ok (!(pyEq rowVal compVal))
  else if op == ">" then
    match pyLtB compVal rowVal with
    | some b => .ok b
    | none => .error .typeErr
  else if op == "<" then
    match pyLtB rowVal compVal with
    | some b => .ok b
    | none => .error .typeErr
  else if op == ">=" then
    match pyLtB rowVal compVal with
    | some b => .ok (!b)
    | none => .error .typeErr
  else if op == "<=" then
    match pyLtB compVal rowVal with
    | some b => .ok (!b)
    | none => .error .typeErr
  else .error (.unknownOperator op)

/-- A row: a Python dict as an association list with unique keys in
insertion order. -/
abbrev Row := List (String × Value)

/-- Python `row[col]` / `col in row`. -/
def rowLookup : Row → String → Option Value
  | [], _ => none
  | (k, v) :: r, c => if k == c then some v else rowLookup r c

/-- The `WHERE` predicate of a structured query. -/
structure WhereClause where
  col : String
  op : String
  val : Value
deriving DecidableEq

/-- The aggregate spec of a structured query. -/
structure Agg where
  function : String
  column : String
deriving DecidableEq

/-- The result of `parse_query` in src/sql_parser.py. -/
structure StructuredQuery where
  select_cols : List String
  from_table : String
  where_clause : Option WhereClause
  aggregate : Option Agg
deriving DecidableEq

/-- The row loop of `_apply_where_clause`: scan rows in order, failing at
the first row whose column is missing or whose value cannot be coerced,
keeping rows whose coerced comparison is true. -/
def whereFold (col op : String) (val : Value) :
    List Row → Except ExecErr (List Row)
  | [] => .ok []
  | row :: rest =>
      match rowLookup row col with
      | none => .error (.columnNotFound col)
      | some rowVal =>
          match coerceValue rowVal val with
          | none => .error (.cannotCompare col val)
          | some coerced =>
              match compareVals coerced op val with
              | .error e => .error e
              | .ok b =>
                  (whereFold col op val rest).map
                    (fun tl => if b then row :: tl else tl)

/-- `_apply_where_clause` of src/query_executor.py. -/
def applyWhereClause (data : List Row) (w : Option WhereClause) :
    Except ExecErr (List Row) :=
  match w with
  | none => .ok data
  | some wc => whereFold wc.col wc.op wc.val data

/-- The counting predicate of `COUNT(column)`: the column is present and
its value is neither Python `None` (not representable in the value model:
ingestion only produces text cells) nor the empty string. -/
def countedIn (col : String) (row : Row) : Bool :=
  match rowLookup row col with
  | some v => !(v == .text "")
  | none => false

/-- Python `str.upper()` on the ASCII fragment (the aggregate function
name is always the ASCII string `COUNT` here). -/
def pyUpper (s : String) : String :=
  (s.data.map Char.toUpper).asString

/-- `_apply_aggregation` of src/query_executor.py. -/
def applyAggregation (data : List Row) (agg : Agg) : Except ExecErr Row :=
  let func := pyUpper agg.function
  if !(func == "COUNT") then .error (.unsupportedAggregate func)
  else if agg.column == "*" then
    .ok [("COUNT(*)", .int (data.length : Int))]
  else if (match data.head? with
           | some r0 => (rowLookup r0 agg.column).isNone
           | none => false) then
    .error (.columnNotFound agg.column)
  else
    .ok [("COUNT(" ++ agg.column ++ ")",
          .int ((data.filter (countedIn agg.column)).length : Int))]

/-- Python `dict` insertion: update the value in place when the key is
present, else append the pair. -/
def dictInsert (r : Row) (k : String) (v : Value) : Row :=
  if (rowLookup r k).isSome then
    r.map (fun kv => if kv.1 == k then (k, v) else kv)
  else r ++ [(k, v)]

/-- The inner loop of `_apply_projection`: build one projected row by
inserting the requested columns in order, failing at the first missing
one. -/
def projectRow (row : Row) (acc : Row) :
    List String → Except ExecErr Row
  | [] => .ok acc
  | c :: cs =>
      match rowLookup row c with
      | none => .error (.columnNotFound c)
      | some v => projectRow row (dictInsert acc c v) cs

/-- The outer loop of `_apply_projection`. -/
def projectAll (cols : List String) : List Row → Except ExecErr (List Row)
  | [] => .ok []
  | row :: rest =>
      match projectRow row [] cols with
      | .error e => .error e
      | .ok pr => (projectAll cols rest).map (fun tl => pr :: tl)

/-- `_apply_projection` of src/query_executor.py. -/
def applyProjection (data : List Row) (cols : List String) :
    Except ExecErr (List Row) :=
  match data with
  | [] => .ok []
  | _ =>
      if cols == ["*"] then .ok data
      else projectAll cols data

/-- Case-insensitive ASCII character match (re.IGNORECASE on the ASCII
keywords of the grammar). -/
def charCI (a b : Char) : Bool := a.toLower == b.toLower

/-- Drop a case-insensitive literal pattern from the front of the input,
returning the rest on success. -/
def dropCI : List Char → List Char → Option (List Char)
  | [], cs => some cs
  | _ :: _, [] => none
  | p :: ps, c :: cs => if charCI p c then dropCI ps cs else none

/-- `dropCI` with a string pattern. -/
def dropCIs (pat : String) (cs : List Char) : Option (List Char) :=
  dropCI pat.data cs

/-- Backtracking for a greedy `\s`-run followed by `(.+)`: `spRev` is the
reversed run of consumed whitespace, `seq` what follows it.  Give trailing
whitespace back (keeping at least `minKeep` characters, 1 for `\s+` and 0
for `\s*`) until `(.+)` can match, i.e. until the next character exists and
is not a newline; the group is then everything up to the next newline. -/
def backOff (minKeep : Nat) : List Char → List Char → Option (List Char)
  | [], [] => none
  | [], c :: rest =>
      if c == '\n' then none
      else some ((c :: rest).takeWhile (fun x => !(x == '\n')))
  | s :: spRev2, [] =>
      if minKeep ≤ spRev2.length then backOff minKeep spRev2 [s] else none
  | s :: spRev2, c :: rest =>
      if c == '\n' then
        if minKeep ≤ spRev2.length then
          backOff minKeep spRev2 (s :: c :: rest)
        else none
      else some ((c :: rest).takeWhile (fun x => !(x == '\n')))

/-- The optional group `(?:\s+WHERE\s+(.+))?` of the top-level pattern of
`parse_query`, matched at the given position: `some` of the captured
`(.+)` text when the group matches, else `none` (the group then matches
empty).  The whitespace before `WHERE` never backtracks (no whitespace
character can begin `WHERE`); the whitespace after it backtracks into
`(.+)` per `backOff`. -/
def matchWhereOpt (cs : List Char) : Option String :=
  let a := cs.span pySpace
  if a.1.isEmpty then none
  else
    match dropCIs "WHERE" a.2 with
    | none => none
    | some r2 =>
        let b := r2.span pySpace
        if b.1.isEmpty then none
        else (backOff 1 b.1.reverse b.2).map List.asString

/-- The tail `\s+FROM\s+([\w]+)(?:\s+WHERE\s+(.+))?` of the top-level
pattern, matched at the given position: `some (table, whereText?)`.  The
table run `[\w]+` is taken maximally and never backtracks, because the
optional group can always match empty. -/
def tailMatch (cs : List Char) : Option (String × Option String) :=
  let a := cs.span pySpace
  if a.1.isEmpty then none
  else
    match dropCIs "FROM" a.2 with
    | none => none
    | some r2 =>
        let b := r2.span pySpace
        if b.1.isEmpty then none
        else
          let w := b.2.span pyWordChar
          if w.1.isEmpty then none
          else some (w.1.asString, matchWhereOpt w.2)

/-- The lazy group `(.*?)` of the top-level pattern: try the shortest
select-part first (it may not contain a newline), extending one character
at a time until the tail matches. -/
def lazyScan : List Char → List Char →
    Option (String × String × Option String)
  | accRev, [] =>
      (tailMatch []).map (fun r => (accRev.reverse.asString, r.1, r.2))
  | accRev, c :: rest =>
      match tailMatch (c :: rest) with
      | some r => some (accRev.reverse.asString, r.1, r.2)
      | none => if c == '\n' then none else lazyScan (c :: accRev) rest

/-- The greedy `\s+` after `SELECT`: prefer the longest whitespace run,
giving one trailing space at a time back to the lazy group (at least one
space must remain). -/
def w1Scan : List Char → List Char →
    Option (String × String × Option String)
  | s :: s2 :: spRev2, cs =>
      match lazyScan [] cs with
      | some r => some r
      | none => w1Scan (s2 :: spRev2) (s :: cs)
  | _, cs => lazyScan [] cs

/-- `re.match` of the top-level pattern
`SELECT\s+(.*?)\s+FROM\s+([\w]+)(?:\s+WHERE\s+(.+))?` with
`re.IGNORECASE`: anchored at the start of the input only — trailing input
beyond the match is ignored.  Returns the three groups. -/
def topMatch (cs : List Char) : Option (String × String × Option String) :=
  match dropCIs "SELECT" cs with
  | none => none
  | some r0 =>
      let a := r0.span pySpace
      if a.1.isEmpty then none else w1Scan a.1.reverse a.2

/-- The operator alternation `(=|!=|>=|<=|>|<)` of the WHERE pattern: all
alternatives matching at this position, in the pattern's priority order,
each with the rest of the input.  (`>=` is listed before `>`, so `>=` is
preferred, but when the remainder of the pattern fails after `>=` the
engine backtracks to `>` with `=` left over.) -/
def opAlts : List Char → List (String × List Char)
  | '=' :: r => [("=", r)]
  | '!' :: '=' :: r => [("!=", r)]
  | '>' :: '=' :: r => [(">=", r), (">", '=' :: r)]
  | '<' :: '=' :: r => [("<=", r), ("<", '=' :: r)]
  | '>' :: r => [(">", r)]
  | '<' :: r => [("<", r)]
  | _ => []

/-- The `\s*(.+)` tail of the WHERE pattern after the operator. -/
def whereTail (r : List Char) : Option (List Char) :=
  let p := r.span pySpace
  backOff 0 p.1.reverse p.2

/-- `re.match` of the WHERE pattern `([\w]+)\s*(=|!=|>=|<=|>|<)\s*(.+)`:
the column run and the whitespace never backtrack (no word or whitespace
character can begin an operator); the operator alternatives are tried in
priority order against the tail. -/
def whereMatch (cs : List Char) : Option (String × String × String) :=
  let pw := cs.span pyWordChar
  if pw.1.isEmpty then none
  else
    let ps := pw.2.span pySpace
    (opAlts ps.2).findSome? (fun alt =>
      (whereTail alt.2).map (fun body =>
        (pw.1.asString, alt.1, body.asString)))

/-- `re.match` of the aggregate pattern `COUNT\s*\(\s*(\*|[\w]+)\s*\)`
with `re.IGNORECASE`, anchored at the start only: `some` of the captured
column (`*` or a word run). -/
def countMatch (cs : List Char) : Option String :=
  match dropCIs "COUNT" cs with
  | none => none
  | some r1 =>
      let a := r1.span pySpace
      match a.2 with
      | '(' :: r3 =>
          let b := r3.span pySpace
          match b.2 with
          | '*' :: r5 =>
              let c := r5.span pySpace
              (match c.2 with | ')' :: _ => some "*" | _ => none)
          | r4 =>
              let w := r4.span pyWordChar
              if w.1.isEmpty then none
              else
                let d := w.2.span pySpace
                match d.2 with
                | ')' :: _ => some w.1.asString
                | _ => none
      | _ => none

/-- The single-quote character. -/
def quoteChar : Char := Char.ofNat 39

/-- Errors of query parsing (`QueryParseError` of src/sql_parser.py), one
constructor per raise site. -/
inductive ParseErr where
  | emptyQuery
  | invalidSyntax
  | invalidColumnName (col : String)
  | invalidWhere
  | invalidValue (v : String)
deriving DecidableEq

/-- `_parse_value` of src/sql_parser.py: strip, then a text literal when
the text both starts and ends with a single quote (a lone quote satisfies
both checks and yields the empty text), else an int unless the text
contains `.`, in which case a float. -/
def parseValue (valStr : String) : Except ParseErr Value :=
  let v := pyStrip valStr
  if (v.data.head? == some quoteChar) && (v.data.getLast? == some quoteChar)
  then .ok (.text ((v.data.drop 1).dropLast.asString))
  else if v.data.contains '.' then
    match pyFloatOfString v with
    | some q => .ok (.float q)
    | none => .error (.invalidValue v)
  else
    match pyIntOfString v with
    | some n => .ok (.int n)
    | none => .error (.invalidValue v)

/-- `_parse_where_clause` of src/sql_parser.py. -/
def parseWhereClause (wherePart : String) : Except ParseErr WhereClause :=
  match whereMatch (pyStrip wherePart).data with
  | none => .error .invalidWhere
  | some g =>
      (parseValue (pyStrip g.2.2)).map
        (fun pv => ⟨pyStrip g.1, pyStrip g.2.1, pv⟩)

/-- Python `str.split(',')`: split into segments at every comma; the empty
string yields one empty segment. -/
def splitComma : List Char → List (List Char)
  | [] => [[]]
  | c :: cs =>
      if c == ',' then [] :: splitComma cs
      else
        match splitComma cs with
        | g :: gs => (c :: g) :: gs
        | [] => [[c]]

/-- `_parse_select_clause` of src/sql_parser.py.  A select token is valid
when it matches `^[\w]+$`: non-empty and all word characters (the tokens
are stripped, so the pattern's acceptance of one trailing newline before
`$` cannot arise). -/
def parseSelectClause (selectPart : String) :
    Except ParseErr (List String × Option Agg) :=
  let s := pyStrip selectPart
  match countMatch s.data with
  | some col => .ok (["*"], some ⟨"COUNT", pyStrip col⟩)
  | none =>
      if s == "*" then .ok (["*"], none)
      else
        let cols := (splitComma s.data).map (fun g => (pyStripList g).asString)
        match cols.find?
            (fun c => !(!c.data.isEmpty && c.data.all pyWordChar)) with
        | some bad => .error (.invalidColumnName bad)
        | none => .ok (cols, none)

/-- `parse_query` of src/sql_parser.py. -/
def parse_query (query : String) : Except ParseErr StructuredQuery :=
  let q := pyStrip query
  if q.data.isEmpty then .error .emptyQuery
  else
    match topMatch q.data with
    | none => .error .invalidSyntax
    | some g =>
        let selectPart := pyStrip g.1
        let fromTable := pyStrip g.2.1
        let wherePartOpt := g.2.2.map pyStrip
        match parseSelectClause selectPart with
        | .error e => .error e
        | .ok sc =>
            match wherePartOpt with
            | some w =>
                if w.data.isEmpty then .ok ⟨sc.1, fromTable, none, sc.2⟩
                else
                  match parseWhereClause w with
                  | .error e => .error e
                  | .ok wc => .ok ⟨sc.1, fromTable, some wc, sc.2⟩
            | none => .ok ⟨sc.1, fromTable, none, sc.2⟩

/-- `execute_query` of src/query_executor.py: filter, then aggregate or
project. -/
def execute_query (data : List Row) (q : StructuredQuery) :
    Except ExecErr (List Row) := do
  let filtered ← applyWhereClause data q.where_clause
  match q.aggregate with
  | some agg => do
      let r ← applyAggregation filtered agg
      return [r]
  | none => applyProjection filtered q.select_cols

/-! ## Derived definitions used by the claim statements -/

/-- Text comparison as the spec states it for text literals: both sides
compared as strings (equality, or lexicographic order by code point). -/
def textCompare (a : String) (op : String) (b : String) : Bool :=
  if op == "=" then a == b
  else if op == "!=" then !(a == b)
  else if op == ">" then decide (b < a)
  else if op == "<" then decide (a < b)
  else if op == ">=" then !(decide (a < b))
  else !(decide (b < a))

/-- One row passes the WHERE predicate: its column is present, coercion
succeeds, and the comparison returns true. -/
def rowPasses (col op : String) (val : Value) (row : Row) : Bool :=
  match rowLookup row col with
  | some rv =>
      match coerceValue rv val with
      | some c =>
          match compareVals c op val with
          | .ok b => b
          | .error _ => false
      | none => false
  | none => false

/-- Evaluating the WHERE predicate on one row succeeds (column present,
coercion succeeds, comparison returns a boolean). -/
def rowEvalOk (col op : String) (val : Value) (row : Row) : Bool :=
  match rowLookup row col with
  | some rv =>
      match coerceValue rv val with
      | some c =>
          match compareVals c op val with
          | .ok _ => true
          | .error _ => false
      | none => false
  | none => false

/-- Requested columns with later duplicates removed (first occurrence
kept), as Python dict insertion orders the keys of a projected row. -/
def firstDedup (cols : List String) : List String :=
  cols.foldl (fun k c => if k.contains c then k else k ++ [c]) []

/-- The cell of `row` at column `c` (default empty text; only used where
the column is known to be present). -/
def cellAt (row : Row) (c : String) : Value :=
  (rowLookup row c).getD (.text "")

/-! ## Claims -/

/-- C1: on the dataset `[{name: Alice, age: "30"}, {name: Bob, age: "25"}]`
the parsed query `SELECT name FROM t WHERE age > 28` returns exactly
`[{name: Alice}]`; the text cell `"30"` is coerced to the integer 30 and
compared numerically with 28, `"25"` fails the comparison, and the
surviving row is projected to its `name` column only. -/
theorem claim_C1 :
    parse_query "SELECT name FROM t WHERE age > 28" =
      .ok ⟨["name"], "t", some ⟨"age", ">", .int 28⟩, none⟩ ∧
    execute_query
        [[("name", .text "Alice"), ("age", .text "30")],
         [("name", .text "Bob"), ("age", .text "25")]]
        ⟨["name"], "t", some ⟨"age", ">", .int 28⟩, none⟩ =
      .ok [[("name", .text "Alice")]] ∧
    coerceValue (.text "30") (.int 28) = some (.int 30) ∧
    compareVals (.int 30) ">" (.int 28) = .ok true ∧
    coerceValue (.text "25") (.int 28) = some (.int 25) ∧
    compareVals (.int 25) ">" (.int 28) = .ok false :=
  ⟨rfl, rfl, rfl, rfl, rfl, rfl⟩

/-- C8: the query `SELECT name FROM t WHERE name <=> 'Alice'` is rejected
by the parser with a `QueryParseError` (never a successful parse, never an
execution error): the WHERE pattern reads the operator `<=` out of `<=>`,
leaving the literal text `> 'Alice'`, which fails literal parsing. -/
theorem claim_C8 :
    parse_query "SELECT name FROM t WHERE name <=> 'Alice'" =
      .error (.invalidValue "> 'Alice'") :=
  rfl

/-- C10: a WHERE literal consisting of exactly one single-quote character
parses as the empty text value, because the lone quote is both the first
and the last character of the literal, so the quote-stripping slice yields
the empty string. -/
theorem claim_C10 :
    parse_query "SELECT a FROM t WHERE a = '" =
      .ok ⟨["a"], "t", some ⟨"a", "=", .text ""⟩, none⟩ ∧
    parseValue "'" = .ok (.text "") ∧
    ((("'" : String).data.head? == some quoteChar) &&
      (("'" : String).data.getLast? == some quoteChar)) = true :=
  ⟨rfl, rfl, rfl⟩

/-- C3 counterexample: `SELECT a FROM t garbage` has trailing content
after the table name, outside the supported grammar, yet `parse_query`
accepts it (the top-level pattern is anchored at the start only). -/
theorem claim_C3_counterexample :
    parse_query "SELECT a FROM t garbage" = .ok ⟨["a"], "t", none, none⟩ :=
  rfl

/-- C3 amended: input that does not begin (after stripping) with `SELECT`
followed by whitespace is always rejected, but trailing content after the
table name that does not form a WHERE clause is silently ignored rather
than rejected. -/
theorem claim_C3_amended :
    parse_query "SELECT a FROM t garbage" =
      .ok ⟨["a"], "t", none, none⟩ ∧
    parse_query "oops SELECT a FROM t" = .error .invalidSyntax ∧
    ∀ (s : String) (q : StructuredQuery), parse_query s = .ok q →
      ∃ r0, dropCIs "SELECT" (pyStrip s).data = some r0 ∧
        ((r0.span pySpace).1.isEmpty = false) := by
  refine ⟨rfl, rfl, ?_⟩
  intro s q h
  unfold parse_query at h
  by_cases he : (pyStrip s).data.isEmpty
  · simp only [he, if_true] at h
    exact Except.noConfusion h
  · simp only [he, if_false] at h
    cases htop : topMatch (pyStrip s).data with
    | none => rw [htop] at h; exact absurd h (by simp)
    | some g =>
        unfold topMatch at htop
        cases hd : dropCIs "SELECT" (pyStrip s).data with
        | none => rw [hd] at htop; exact absurd htop (by simp)
        | some r0 =>
            refine ⟨r0, rfl, ?_⟩
            rw [hd] at htop
            by_cases hsp : ((r0.span pySpace).1.isEmpty)
            · simp only [hsp, if_true] at htop; exact absurd htop (by simp)
            · simpa using hsp

/-- C3 witness: the universal part of the amended claim, instantiated at
the accepted query `SELECT a FROM t garbage`. -/
theorem claim_C3_witness :
    ∃ r0, dropCIs "SELECT" (pyStrip "SELECT a FROM t garbage").data =
        some r0 ∧ ((r0.span pySpace).1.isEmpty = false) :=
  claim_C3_amended.2.2 "SELECT a FROM t garbage" ⟨["a"], "t", none, none⟩
    rfl

/-- C4 counterexample: the select token `é` contains no character of the
claimed pattern `^[A-Za-z0-9_]+$`, yet `SELECT é FROM t` parses
successfully — Python's `\w` is Unicode-aware, so non-ASCII letters are
accepted as column names, not rejected with a `ParseError`. -/
theorem claim_C4_counterexample :
    parse_query "SELECT é FROM t" = .ok ⟨["é"], "t", none, none⟩ ∧
    pyWordChar 'é' = true :=
  ⟨rfl, rfl⟩

/-- C4 amended: select tokens are validated against Python's `\w` class
(Unicode word characters), which agrees with `[A-Za-z0-9_]` exactly on
ASCII but additionally accepts non-ASCII word characters such as `é`;
a non-COUNT, non-`*` select part fails with
`ParseError("invalid column name: ...")` exactly when some trimmed
comma-separated token is empty or contains a non-word character. -/
theorem claim_C4_amended :
    (∀ c : Char, c.toNat < 128 →
      (pyWordChar c = true ↔
        (0x30 ≤ c.toNat ∧ c.toNat ≤ 0x39) ∨
        (0x41 ≤ c.toNat ∧ c.toNat ≤ 0x5A) ∨
        (0x61 ≤ c.toNat ∧ c.toNat ≤ 0x7A) ∨ c.toNat = 0x5F)) ∧
    pyWordChar 'é' = true ∧
    parse_query "SELECT a-b FROM t" =
      .error (.invalidColumnName "a-b") ∧
    ∀ s : String, countMatch (pyStrip s).data = none →
      ¬(pyStrip s = "*") →
      ((∃ bad, parseSelectClause s = .error (.invalidColumnName bad)) ↔
        ∃ t ∈ (splitComma (pyStrip s).data).map
            (fun g => (pyStripList g).asString),
          t.data.isEmpty = true ∨ t.data.all pyWordChar = false) := by
  refine ⟨?_, rfl, rfl, ?_⟩
  · intro c hc
    simp only [pyWordChar, Bool.or_eq_true, Bool.and_eq_true,
      decide_eq_true_eq, beq_iff_eq, Bool.not_eq_true', beq_eq_false_iff_ne]
    omega
  · intro s hcount hstar
    unfold parseSelectClause
    have hne : (pyStrip s == "*") = false := by simpa using hstar
    simp only [hcount, hne, Bool.false_eq_true, if_false]
    cases hf : ((splitComma (pyStrip s).data).map
        (fun g => (pyStripList g).asString)).find?
        (fun c => !(!c.data.isEmpty && c.data.all pyWordChar)) with
    | none =>
        simp only [hf]
        constructor
        · rintro ⟨bad, hbad⟩; exact absurd hbad (by simp)
        · rintro ⟨t, ht, hbad⟩
          have hpt := List.find?_eq_none.mp hf t ht
          have h1 : (!t.data.isEmpty && t.data.all pyWordChar) = true := by
            revert hpt
            cases (!t.data.isEmpty && t.data.all pyWordChar) <;> simp
          rcases hbad with hb | hb
          · rw [hb] at h1; simp at h1
          · rw [hb] at h1; simp at h1
    | some bad =>
        simp only [hf]
        constructor
        · intro _
          refine ⟨bad, List.mem_of_find?_eq_some hf, ?_⟩
          have hp := List.find?_some hf
          revert hp
          cases hbe : bad.data.isEmpty <;>
            cases hba : bad.data.all pyWordChar <;> simp
        · intro _; exact ⟨bad, rfl⟩

/-- C4 witness: the ASCII agreement of `\w` with `[A-Za-z0-9_]`
instantiated at `a`, and the token-validation characterization
instantiated at the select part `a-b`. -/
theorem claim_C4_witness :
    (pyWordChar 'a' = true ↔
      (0x30 ≤ 'a'.toNat ∧ 'a'.toNat ≤ 0x39) ∨
      (0x41 ≤ 'a'.toNat ∧ 'a'.toNat ≤ 0x5A) ∨
      (0x61 ≤ 'a'.toNat ∧ 'a'.toNat ≤ 0x7A) ∨ 'a'.toNat = 0x5F) ∧
    ((∃ bad, parseSelectClause "a-b" =
        .error (.invalidColumnName bad)) ↔
      ∃ t ∈ (splitComma (pyStrip "a-b").data).map
          (fun g => (pyStripList g).asString),
        t.data.isEmpty = true ∨ t.data.all pyWordChar = false) :=
  ⟨claim_C4_amended.1 'a' (by decide),
   claim_C4_amended.2.2.2 "a-b" rfl (by decide)⟩

/-- C2: coercion rule order — same kind returned unchanged; text literal
forces text conversion of the row value, which never fails; a float
literal parses the row value as float; an int literal parses the row
value as int unless its text form contains a decimal point, in which case
as float (so int literal 30 against the cell text `"30.5"` yields the
float 30.5); a failed numeric parse is a coercion error, surfaced by the
WHERE evaluation as an `ExecutionError`. -/
theorem claim_C2 :
    (∀ rv cv : Value, sameKind rv cv = true → coerceValue rv cv = some rv) ∧
    (∀ (rv : Value) (s : String),
      coerceValue rv (.text s) = some (.text (pyStr rv))) ∧
    (∀ (rv : Value) (q : ℚ), sameKind rv (.float q) = false →
      coerceValue rv (.float q) = (pyFloatOfValue rv).map .float) ∧
    (∀ (rv : Value) (n : Int), sameKind rv (.int n) = false →
      coerceValue rv (.int n) =
        (if (pyStr rv).data.contains '.' then
          (pyFloatOfValue rv).map .float
        else (pyIntOfValue rv).map .int)) ∧
    coerceValue (.text "30.5") (.int 30) = some (.float (mkRat 61 2)) ∧
    (∀ (col op : String) (val rv : Value) (row : Row) (rest : List Row),
      rowLookup row col = some rv → coerceValue rv val = none →
      whereFold col op val (row :: rest) =
        .error (.cannotCompare col val)) := by
  refine ⟨?_, ?_, ?_, ?_, rfl, ?_⟩
  · intro rv cv h
    simp [coerceValue, h]
  · intro rv s
    cases rv <;> simp [coerceValue, sameKind, pyStr]
  · intro rv q h
    simp [coerceValue, h]
  · intro rv n h
    simp [coerceValue, h]
  · intro col op val rv row rest h1 h2
    simp [whereFold, h1, h2]

/-- C2 witness: each universally quantified part of C2 instantiated at a
concrete input — same-kind text/text, int row value against a text
literal, text `"abc"` against a float and an int literal (failed numeric
parses), and the surfacing of the coercion failure by the WHERE scan. -/
theorem claim_C2_witness :
    coerceValue (.text "x") (.text "y") = some (.text "x") ∧
    coerceValue (.int 7) (.text "y") = some (.text (pyStr (.int 7))) ∧
    coerceValue (.text "abc") (.float (mkRat 1 2)) =
      (pyFloatOfValue (.text "abc")).map .float ∧
    coerceValue (.text "abc") (.int 3) =
      (if (pyStr (.text "abc")).data.contains '.' then
        (pyFloatOfValue (.text "abc")).map .float
      else (pyIntOfValue (.text "abc")).map .int) ∧
    whereFold "c" "=" (.int 3) [[("c", .text "abc")]] =
      .error (.cannotCompare "c" (.int 3)) :=
  ⟨claim_C2.1 (.text "x") (.text "y") (by decide),
   claim_C2.2.1 (.int 7) "y",
   claim_C2.2.2.1 (.text "abc") (mkRat 1 2) (by decide),
   claim_C2.2.2.2.1 (.text "abc") 3 (by decide),
   claim_C2.2.2.2.2.2 "c" "=" (.int 3) (.text "abc")
     [("c", .text "abc")] [] rfl rfl⟩

/-- C9: comparing any row cell against a text (single-quoted) literal
never raises a coercion error — the row value is converted to its text
form, which always succeeds — and every operator of the enumerated set
then compares the two text forms as strings. -/
theorem claim_C9 :
    ∀ (v : Value) (s op : String),
      op ∈ ["=", "!=", ">", "<", ">=", "<="] →
      coerceValue v (.text s) = some (.text (pyStr v)) ∧
      compareVals (.text (pyStr v)) op (.text s) =
        .ok (textCompare (pyStr v) op s) := by
  intro v s op hop
  refine ⟨?_, ?_⟩
  · cases v <;> simp [coerceValue, sameKind, pyStr]
  · fin_cases hop <;>
      simp [compareVals, textCompare, pyEq, pyLtB]

/-- C9 witness: the numerically-shaped cell text `"30"` compared with
`>` against the text literal `"28"` — coercion succeeds and the
comparison is the string comparison of `"30"` and `"28"`. -/
theorem claim_C9_witness :
    coerceValue (.text "30") (.text "28") =
      some (.text (pyStr (.text "30"))) ∧
    compareVals (.text (pyStr (.text "30"))) ">" (.text "28") =
      .ok (textCompare (pyStr (.text "30")) ">" "28") :=
  claim_C9 (.text "30") "28" ">" (by decide)

/-- C5: with no predicate the filter returns its input unchanged; with a
predicate it returns exactly the subsequence of rows whose coerced
comparison is true, in original order with unmodified rows, and it fails
with `ExecutionError("column not found")` as soon as it reaches a row
whose keys do not include the predicate's column. -/
theorem claim_C5 :
    (∀ rows : List Row, applyWhereClause rows none = .ok rows) ∧
    (∀ (rows : List Row) (col op : String) (val : Value),
      (∀ r ∈ rows, rowEvalOk col op val r = true) →
      applyWhereClause rows (some ⟨col, op, val⟩) =
        .ok (rows.filter (rowPasses col op val))) ∧
    (∀ (pre post : List Row) (row : Row) (col op : String) (val : Value),
      (∀ r ∈ pre, rowEvalOk col op val r = true) →
      rowLookup row col = none →
      applyWhereClause (pre ++ row :: post) (some ⟨col, op, val⟩) =
        .error (.columnNotFound col)) := by
  refine ⟨fun rows => rfl, ?_, ?_⟩
  · intro rows col op val h
    show whereFold col op val rows = _
    induction rows with
    | nil => rfl
    | cons r rs ih =>
        have hr := h r (List.mem_cons_self r rs)
        have hrs : ∀ x ∈ rs, rowEvalOk col op val x = true :=
          fun x hx => h x (List.mem_cons_of_mem r hx)
        cases hl : rowLookup r col with
        | none => simp [rowEvalOk, hl] at hr
        | some rv =>
            cases hc : coerceValue rv val with
            | none => simp [rowEvalOk, hl, hc] at hr
            | some cv =>
                cases hcmp : compareVals cv op val with
                | error e => simp [rowEvalOk, hl, hc, hcmp] at hr
                | ok b =>
                    have hpass : rowPasses col op val r = b := by
                      simp [rowPasses, hl, hc, hcmp]
                    simp only [whereFold, hl, hc, hcmp, ih hrs,
                      List.filter_cons, hpass, Except.map]
  · intro pre post row col op val h hlook
    show whereFold col op val (pre ++ row :: post) = _
    induction pre with
    | nil => simp [whereFold, hlook]
    | cons p ps ih =>
        have hp := h p (List.mem_cons_self p ps)
        have hps : ∀ x ∈ ps, rowEvalOk col op val x = true :=
          fun x hx => h x (List.mem_cons_of_mem p hx)
        cases hl : rowLookup p col with
        | none => simp [rowEvalOk, hl] at hp
        | some rv =>
            cases hc : coerceValue rv val with
            | none => simp [rowEvalOk, hl, hc] at hp
            | some cv =>
                cases hcmp : compareVals cv op val with
                | error e => simp [rowEvalOk, hl, hc, hcmp] at hp
                | ok b =>
                    simp only [List.cons_append, whereFold, hl, hc, hcmp,
                      List.append_eq, ih hps, Except.map]

/-- C5 witness: the identity law on a one-row dataset, the filtering law
on the C1 dataset with predicate `age > 28`, and the column-not-found
failure reached at the second row. -/
theorem claim_C5_witness :
    applyWhereClause [[("a", .text "1")]] none = .ok [[("a", .text "1")]] ∧
    applyWhereClause
        [[("name", .text "Alice"), ("age", .text "30")],
         [("name", .text "Bob"), ("age", .text "25")]]
        (some ⟨"age", ">", .int 28⟩) =
      .ok ([[("name", .text "Alice"), ("age", .text "30")],
            [("name", .text "Bob"), ("age", .text "25")]].filter
        (rowPasses "age" ">" (.int 28))) ∧
    applyWhereClause [[("age", .text "30")], [("x", .text "1")]]
        (some ⟨"age", ">", .int 28⟩) =
      .error (.columnNotFound "age") :=
  ⟨claim_C5.1 [[("a", .text "1")]],
   claim_C5.2.1
     [[("name", .text "Alice"), ("age", .text "30")],
      [("name", .text "Bob"), ("age", .text "25")]]
     "age" ">" (.int 28) (by decide),
   claim_C5.2.2 [[("age", .text "30")]] [] [("x", .text "1")]
     "age" ">" (.int 28) (by decide) rfl⟩

/-- C7: `COUNT(*)` returns the row count (0 on empty input);
`COUNT(col)` with `col ≠ *` counts the rows whose value for `col` is
present and not the empty string, fails with
`ExecutionError("column not found")` when the input is non-empty and the
first row lacks the column, and on empty input returns 0 without any
column-existence check. -/
theorem claim_C7 :
    (∀ rows : List Row, applyAggregation rows ⟨"COUNT", "*"⟩ =
      .ok [("COUNT(*)", .int (rows.length : Int))]) ∧
    (∀ (rows : List Row) (r0 : Row) (col : String), ¬(col = "*") →
      rowLookup r0 col = none →
      applyAggregation (r0 :: rows) ⟨"COUNT", col⟩ =
        .error (.columnNotFound col)) ∧
    (∀ (rows : List Row) (r0 : Row) (col : String), ¬(col = "*") →
      (rowLookup r0 col).isSome = true →
      applyAggregation (r0 :: rows) ⟨"COUNT", col⟩ =
        .ok [("COUNT(" ++ col ++ ")",
          .int (((r0 :: rows).filter (countedIn col)).length : Int))]) ∧
    (∀ col : String, ¬(col = "*") →
      applyAggregation [] ⟨"COUNT", col⟩ =
        .ok [("COUNT(" ++ col ++ ")", .int 0)]) ∧
    (∀ (r : Row) (col : String), countedIn col r = true ↔
      ∃ v, rowLookup r col = some v ∧ ¬(v = .text "")) := by
  have hcu : pyUpper "COUNT" = "COUNT" := rfl
  refine ⟨fun rows => rfl, ?_, ?_, ?_, ?_⟩
  · intro rows r0 col hcol hlook
    have hc : (col == "*") = false := by simpa using hcol
    simp [applyAggregation, hcu, hc, hlook]
  · intro rows r0 col hcol hlook
    have hc : (col == "*") = false := by simpa using hcol
    cases hl : rowLookup r0 col with
    | none => rw [hl] at hlook; simp at hlook
    | some v => simp [applyAggregation, hcu, hc, hl]
  · intro col hcol
    have hc : (col == "*") = false := by simpa using hcol
    simp [applyAggregation, hcu, hc]
  · intro r col
    unfold countedIn
    cases hl : rowLookup r col with
    | none => simp
    | some v =>
        simp only [Bool.not_eq_true', beq_eq_false_iff_ne, ne_eq,
          Option.some.injEq]
        constructor
        · intro h; exact ⟨v, rfl, h⟩
        · rintro ⟨w, hw, hne⟩; subst hw; exact hne

/-- C7 witness: `COUNT(*)` over two rows, the missing-column failure, the
non-empty count that skips an empty-string cell, the empty-input count
without existence check, and the counting predicate at a concrete row. -/
theorem claim_C7_witness :
    applyAggregation [[("a", .text "x")], [("a", .text "")]]
        ⟨"COUNT", "*"⟩ = .ok [("COUNT(*)", .int 2)] ∧
    applyAggregation [[("b", .text "x")]] ⟨"COUNT", "a"⟩ =
      .error (.columnNotFound "a") ∧
    applyAggregation [[("a", .text "x")], [("a", .text "")]]
        ⟨"COUNT", "a"⟩ =
      .ok [("COUNT(a)",
        .int (([[("a", .text "x")], [("a", .text "")]].filter
          (countedIn "a")).length : Int))] ∧
    applyAggregation [] ⟨"COUNT", "nope"⟩ =
      .ok [("COUNT(nope)", .int 0)] ∧
    (countedIn "a" [("a", .text "x")] = true ↔
      ∃ v, rowLookup [("a", .text "x")] "a" = some v ∧
        ¬(v = .text "")) :=
  ⟨claim_C7.1 [[("a", .text "x")], [("a", .text "")]],
   claim_C7.2.1 [] [("b", .text "x")] "a" (by decide) rfl,
   claim_C7.2.2.1 [[("a", .text "")]] [("a", .text "x")] "a"
     (by decide) rfl,
   claim_C7.2.2.2.1 "nope" (by decide),
   claim_C7.2.2.2.2 [("a", .text "x")] "a"⟩

/-! ## Helper lemmas for the projection claim -/

theorem contains_eq_false_iff (l : List String) (a : String) :
    (l.contains a = false) ↔ a ∉ l := by
  constructor
  · intro h hmem
    have he : List.elem a l = true := List.elem_iff.mpr hmem
    rw [show l.contains a = List.elem a l from rfl, he] at h
    exact Bool.noConfusion h
  · intro h
    cases hc : l.contains a with
    | false => rfl
    | true => exact absurd (List.elem_iff.mp hc) h

theorem rowLookup_mapKeys (f : String → Value) (k : String) :
    ∀ K : List String,
    rowLookup (K.map (fun c => (c, f c))) k =
      if K.contains k then some (f k) else none := by
  intro K
  induction K with
  | nil => rfl
  | cons c cs ih =>
      simp only [List.map_cons, rowLookup]
      by_cases h : (c == k)
      · have hck : c = k := by simpa using h
        subst hck
        simp
      · have hck : ¬(c = k) := by simpa using h
        rw [if_neg h, ih]
        have hcon : (c :: cs).contains k = cs.contains k := by
          simp only [List.contains_cons]
          have : (k == c) = false := by
            simpa using fun hh => hck hh.symm
          simp [this]
        rw [hcon]

theorem dictInsert_fresh (acc : Row) (k : String) (v : Value)
    (h : rowLookup acc k = none) : dictInsert acc k v = acc ++ [(k, v)] := by
  simp [dictInsert, h]

theorem dictInsert_present (K : List String) (f : String → Value)
    (k : String) (h : K.contains k = true) :
    dictInsert (K.map (fun c => (c, f c))) k (f k) =
      K.map (fun c => (c, f c)) := by
  have hl : rowLookup (K.map (fun c => (c, f c))) k = some (f k) := by
    rw [rowLookup_mapKeys, if_pos h]
  simp only [dictInsert, hl, Option.isSome_some, if_true, List.map_map]
  refine List.map_congr_left ?_
  intro c _
  by_cases hck : (c == k)
  · have : c = k := by simpa using hck
    subst this
    simp
  · simp [Function.comp, hck]

/-- The step of `firstDedup` as a fold. -/
def dedupStep (k : List String) (c : String) : List String :=
  if k.contains c then k else k ++ [c]

theorem projectRow_mapKeys (row : Row) :
    ∀ (cols K : List String), K.Nodup →
    (∀ c ∈ cols, (rowLookup row c).isSome = true) →
    projectRow row (K.map (fun c => (c, cellAt row c))) cols =
      .ok ((cols.foldl dedupStep K).map (fun c => (c, cellAt row c))) := by
  intro cols
  induction cols with
  | nil => intro K _ _; rfl
  | cons c cs ih =>
      intro K hnd hall
      have hc : (rowLookup row c).isSome = true :=
        hall c (List.mem_cons_self c cs)
      obtain ⟨v, hv⟩ := Option.isSome_iff_exists.mp hc
      have hcell : cellAt row c = v := by simp [cellAt, hv]
      have hall2 : ∀ x ∈ cs, (rowLookup row x).isSome = true :=
        fun x hx => hall x (List.mem_cons_of_mem c hx)
      simp only [projectRow, hv, List.foldl_cons]
      by_cases hmem : K.contains c
      · have hins :
            dictInsert (K.map (fun x => (x, cellAt row x))) c v =
              K.map (fun x => (x, cellAt row x)) := by
          rw [← hcell]
          exact dictInsert_present K (cellAt row) c hmem
        rw [hins]
        have hstep : dedupStep K c = K := by
          unfold dedupStep; rw [if_pos hmem]
        rw [hstep]
        exact ih K hnd hall2
      · have hcf : K.contains c = false := Bool.eq_false_iff.mpr hmem
        have hlk : rowLookup (K.map (fun x => (x, cellAt row x))) c = none := by
          rw [rowLookup_mapKeys, hcf]
          rfl
        have hins :
            dictInsert (K.map (fun x => (x, cellAt row x))) c v =
              (K ++ [c]).map (fun x => (x, cellAt row x)) := by
          rw [dictInsert_fresh _ _ _ hlk, List.map_append]
          simp [hcell]
        rw [hins]
        have hstep : dedupStep K c = K ++ [c] := by
          unfold dedupStep; rw [if_neg hmem]
        rw [hstep]
        have hnd2 : (K ++ [c]).Nodup := by
          rw [List.nodup_append]
          exact ⟨hnd, List.nodup_singleton c, by
            intro x hx hxc
            rcases List.mem_singleton.mp hxc with rfl
            exact (contains_eq_false_iff K x).mp hcf hx⟩
        exact ih (K ++ [c]) hnd2 hall2

theorem projectRow_error_iff (row : Row) :
    ∀ (cols : List String) (acc : Row),
    (∃ e, projectRow row acc cols = .error e) ↔
      ∃ c ∈ cols, rowLookup row c = none := by
  intro cols
  induction cols with
  | nil =>
      intro acc
      simp [projectRow]
  | cons c cs ih =>
      intro acc
      cases hv : rowLookup row c with
      | none =>
          simp only [projectRow, hv]
          constructor
          · intro _; exact ⟨c, List.mem_cons_self c cs, hv⟩
          · intro _; exact ⟨.columnNotFound c, rfl⟩
      | some v =>
          simp only [projectRow, hv, ih]
          constructor
          · rintro ⟨x, hx, hnone⟩
            exact ⟨x, List.mem_cons_of_mem c hx, hnone⟩
          · rintro ⟨x, hx, hnone⟩
            rcases List.mem_cons.mp hx with rfl | hx2
            · rw [hv] at hnone; exact Option.noConfusion hnone
            · exact ⟨x, hx2, hnone⟩

theorem projectAll_error_iff (cols : List String) :
    ∀ rows : List Row,
    (∃ e, projectAll cols rows = .error e) ↔
      ∃ r ∈ rows, ∃ c ∈ cols, rowLookup r c = none := by
  intro rows
  induction rows with
  | nil => simp [projectAll]
  | cons r rs ih =>
      cases hp : projectRow r [] cols with
      | error e =>
          simp only [projectAll, hp]
          constructor
          · intro _
            exact ⟨r, List.mem_cons_self r rs,
              (projectRow_error_iff r cols []).mp ⟨e, hp⟩⟩
          · intro _; exact ⟨e, rfl⟩
      | ok pr =>
          simp only [projectAll, hp]
          have hr : ¬∃ c ∈ cols, rowLookup r c = none := by
            intro hcon
            rcases (projectRow_error_iff r cols []).mpr hcon with ⟨e, he⟩
            rw [hp] at he
            exact Except.noConfusion he
          constructor
          · rintro ⟨e, he⟩
            cases hrest : projectAll cols rs with
            | error e2 =>
                rcases ih.mp ⟨e2, hrest⟩ with ⟨x, hx, hc⟩
                exact ⟨x, List.mem_cons_of_mem r hx, hc⟩
            | ok tl => rw [hrest] at he; exact Except.noConfusion he
          · rintro ⟨x, hx, hc⟩
            rcases List.mem_cons.mp hx with rfl | hx2
            · exact absurd hc hr
            · rcases ih.mpr ⟨x, hx2, hc⟩ with ⟨e, he⟩
              rw [he]
              exact ⟨e, rfl⟩

theorem firstDedup_of_nodup :
    ∀ (cols K : List String), cols.Nodup →
    (∀ c ∈ cols, K.contains c = false) →
    cols.foldl dedupStep K = K ++ cols := by
  intro cols
  induction cols with
  | nil => intro K _ _; simp
  | cons c cs ih =>
      intro K hnd hdisj
      have hc : K.contains c = false := hdisj c (List.mem_cons_self c cs)
      have hcne : ¬(K.contains c = true) := by
        intro hcon; rw [hc] at hcon; exact Bool.noConfusion hcon
      have hstep : dedupStep K c = K ++ [c] := by
        unfold dedupStep; rw [if_neg hcne]
      simp only [List.foldl_cons, hstep]
      have hnd2 : cs.Nodup := (List.nodup_cons.mp hnd).2
      have hdisj2 : ∀ x ∈ cs, (K ++ [c]).contains x = false := by
        intro x hx
        rw [Bool.eq_false_iff]
        intro hcon
        rcases List.mem_append.mp (List.elem_iff.mp hcon) with hk | hsingle
        · exact absurd hk ((contains_eq_false_iff K x).mp (hdisj x
            (List.mem_cons_of_mem c hx)))
        · rcases List.mem_singleton.mp hsingle with rfl
          exact (List.nodup_cons.mp hnd).1 hx
      rw [ih (K ++ [c]) hnd2 hdisj2, List.append_assoc]
      rfl

/-- C6: projection of an empty row sequence is empty for every column
list; the `["*"]` sentinel returns the input rows unchanged; otherwise
projection fails with `ExecutionError("column not found")` exactly when
some requested column is absent from some row, and else returns, in
original row order, rows whose keys are the requested columns in
requested order (first occurrence kept when a column is requested twice,
as Python dict insertion does; for a duplicate-free request this is
exactly the requested list). -/
theorem claim_C6 :
    (∀ cols : List String, applyProjection [] cols = .ok []) ∧
    (∀ rows : List Row, applyProjection rows ["*"] = .ok rows) ∧
    (∀ (rows : List Row) (cols : List String), ¬(cols = ["*"]) →
      ((∃ e, applyProjection rows cols = .error e) ↔
        ∃ r ∈ rows, ∃ c ∈ cols, rowLookup r c = none)) ∧
    (∀ (rows : List Row) (cols : List String), ¬(cols = ["*"]) →
      (∀ r ∈ rows, ∀ c ∈ cols, (rowLookup r c).isSome = true) →
      applyProjection rows cols =
        .ok (rows.map (fun r =>
          (firstDedup cols).map (fun c => (c, cellAt r c))))) ∧
    (∀ cols : List String, cols.Nodup → firstDedup cols = cols) := by
  have hmain : ∀ (cols : List String) (rows : List Row),
      (∀ r ∈ rows, ∀ c ∈ cols, (rowLookup r c).isSome = true) →
      projectAll cols rows =
        .ok (rows.map (fun r =>
          (firstDedup cols).map (fun c => (c, cellAt r c)))) := by
    intro cols rows hall
    induction rows with
    | nil => rfl
    | cons r rs ih =>
        have hr := projectRow_mapKeys r cols [] List.nodup_nil
          (fun c hc => hall r (List.mem_cons_self r rs) c hc)
        have hr' : projectRow r [] cols =
            .ok ((firstDedup cols).map (fun c => (c, cellAt r c))) := by
          simpa using hr
        have ihs := ih (fun x hx c hc =>
          hall x (List.mem_cons_of_mem r hx) c hc)
        simp only [projectAll, hr', ihs, List.map_cons, Except.map]
  refine ⟨fun cols => rfl, ?_, ?_, ?_, ?_⟩
  · intro rows
    cases rows with
    | nil => rfl
    | cons r rs => rfl
  · intro rows cols hne
    have hbe : (cols == ["*"]) = false := by simpa using hne
    cases rows with
    | nil =>
        simp [applyProjection]
    | cons r rs =>
        simp only [applyProjection, hbe, Bool.false_eq_true, if_false]
        exact projectAll_error_iff cols (r :: rs)
  · intro rows cols hne hall
    have hbe : (cols == ["*"]) = false := by simpa using hne
    cases rows with
    | nil => rfl
    | cons r rs =>
        simp only [applyProjection, hbe, Bool.false_eq_true, if_false]
        exact hmain cols (r :: rs) hall
  · intro cols h
    have hfold := firstDedup_of_nodup cols [] h (fun c _ => rfl)
    rw [show firstDedup cols = cols.foldl dedupStep [] from rfl, hfold,
      List.nil_append]

/-- C6 witness: the parts of C6 instantiated at concrete inputs — empty
input, the `*` sentinel over a one-row table, the error characterization
and the success equation on a two-column row, and duplicate-freeness of a
concrete column list. -/
theorem claim_C6_witness :
    applyProjection [] ["a"] = .ok [] ∧
    applyProjection [[("a", .text "1"), ("b", .text "2")]] ["*"] =
      .ok [[("a", .text "1"), ("b", .text "2")]] ∧
    ((∃ e, applyProjection [[("a", .text "1"), ("b", .text "2")]] ["c"] =
        .error e) ↔
      ∃ r ∈ [[("a", .text "1"), ("b", .text "2")]],
        ∃ c ∈ ["c"], rowLookup r c = none) ∧
    applyProjection [[("a", .text "1"), ("b", .text "2")]] ["b", "a"] =
      .ok ([[("a", .text "1"), ("b", .text "2")]].map (fun r =>
        (firstDedup ["b", "a"]).map (fun c => (c, cellAt r c)))) ∧
    firstDedup ["b", "a"] = ["b", "a"] :=
  ⟨claim_C6.1 ["a"],
   claim_C6.2.1 [[("a", .text "1"), ("b", .text "2")]],
   claim_C6.2.2.1 [[("a", .text "1"), ("b", .text "2")]] ["c"]
     (by decide),
   claim_C6.2.2.2.1 [[("a", .text "1"), ("b", .text "2")]] ["b", "a"]
     (by decide) (by decide),
   claim_C6.2.2.2.2 ["b", "a"] (by decide)⟩

end MiniSql
